import Mathlib

/-!
Verification of the fixed-income reporting pipeline in `principal.py`.

The program is a linear pandas pipeline: schema validation, a per-row value
resolver choosing between two valuation-curve columns, a rule-based taxonomy
classifier, group-by aggregation with two percentage columns, and an
append-only historical ledger re-aggregated into monthly pivots.

Modelling conventions:
- monetary values (pandas float64 cells) are modelled as exact rationals `ℚ`;
  a missing/NaN cell is `Option.none`;
- dataframes are lists of records; `groupby(key)[col].sum()` is modelled by
  `groupBySum`, a fold that accumulates one `(key, sum)` pair per distinct
  key in first-occurrence order (the claims proved here only inspect group
  sums by key lookup, total sums and group counts, all independent of the
  group order);
- `st.error(...); st.stop()` is modelled with `Except`: the error branch
  produces no output;
- Python strings are Lean `String`s; `str.upper()` is `pyUpper` (ASCII and
  Latin-1 letters, the alphabets the rule tables use) and `str.strip()` is
  `pyStrip`; the substring operator `in` is `seqContains` on character lists.
-/

namespace MesaRF

/-! ## Value Resolver (source: `escolher_valor_rf`, principal.py lines 121–131)

Source:
```
def escolher_valor_rf(row):
    vb_cli = row["valor_bruto_cliente"]
    vb_mer = row["valor_bruto_mercado"]
    if pd.isna(vb_cli) and pd.isna(vb_mer): return 0.0
    if pd.isna(vb_cli): return vb_mer
    if pd.isna(vb_mer): return vb_cli
    return min(vb_cli, vb_mer)
```
A NaN cell is `none`; `pd.isna` is the `none` test. -/

def escolher_valor_rf (vb_cli vb_mer : Option ℚ) : ℚ :=
  match vb_cli, vb_mer with
  | none, none => 0
  | none, some m => m
  | some c, none => c
  | some c, some m => min c m

/-! ## String primitives for the classifier -/

/-- Python `str.upper()` on one character, for ASCII `a-z` and the Latin-1
lowercase range `à..þ` (excluding the division sign `÷`), which covers every
alphabet the rule tables and labels of `principal.py` use. -/
def pyUpperChar (c : Char) : Char :=
  if 'a' ≤ c ∧ c ≤ 'z' then Char.ofNat (c.toNat - 32)
  else if 'à' ≤ c ∧ c ≤ 'þ' ∧ c ≠ '÷' then Char.ofNat (c.toNat - 32)
  else c

/-- Python `str.upper()`. -/
def pyUpper (s : String) : String := ⟨s.data.map pyUpperChar⟩

/-- Whitespace characters stripped by Python `str.strip()` (ASCII subset). -/
def pySpace (c : Char) : Bool :=
  c = ' ' || c = '\t' || c = '\n' || c = '\r' || c = '\x0b' || c = '\x0c'

/-- Python `str.strip()` on a character list: drop whitespace at both ends. -/
def stripL (l : List Char) : List Char :=
  ((l.dropWhile pySpace).reverse.dropWhile pySpace).reverse

/-- Python `str.strip()`. -/
def pyStrip (s : String) : String := ⟨stripL s.data⟩

/-- Does `hay` start with `needle`? (helper for the substring test). -/
def seqStarts : List Char → List Char → Bool
  | [], _ => true
  | _ :: _, [] => false
  | a :: as, b :: bs => if a = b then seqStarts as bs else false

/-- Python substring operator `needle in hay` on character lists. -/
def seqContains (needle : List Char) : List Char → Bool
  | [] => seqStarts needle []
  | b :: bs => seqStarts needle (b :: bs) || seqContains needle bs

/-! ## Classifier (source: principal.py lines 143–178) -/

/-- Source constant `TESOURO_PREFIX = "TESOURO DIRETO"` (renamed here). -/
def TESOURO_MARK : String := "TESOURO DIRETO"

/-- Source set `BANCARIOS` (bank-issued, FGC-insured codes). -/
def BANCARIOS : List String := ["CDB", "LCA", "LCI", "LC", "LIG", "LCD"]

/-- Source set `CREDITO_PRIVADO` (private-credit codes). -/
def CREDITO_PRIVADO : List String := ["CRA", "CRI", "CDCA", "DEBENTURE", "DEBÊNTURE"]

/-- Source set `TPF` (public-bond codes). -/
def TPF : List String := ["NTNB", "LFT", "NTNF", "NTNB-P", "LTN"]

/-- Source set `BANCARIOS_EX_FGC` (bank-issued, FGC-excluded codes). -/
def BANCARIOS_EX_FGC : List String := ["LF", "LFSN", "LFSC"]

/-- Source `classificar_linha(tipo_produto, nome_ativo)`:
upper-case and strip both fields, test the "TESOURO DIRETO" marker as a
substring of either, then test the normalized product code against the four
code sets in order, falling back to "Outros". -/
def classificar_linha (tipo_produto nome_ativo : String) : String :=
  let tp := pyStrip (pyUpper tipo_produto)
  let nome := pyStrip (pyUpper nome_ativo)
  if seqContains TESOURO_MARK.data tp.data || seqContains TESOURO_MARK.data nome.data then
    "Tesouro"
  else if tp ∈ BANCARIOS then "Bancário"
  else if tp ∈ CREDITO_PRIVADO then "Crédito Privado"
  else if tp ∈ TPF then "TPF"
  else if tp ∈ BANCARIOS_EX_FGC then "Bancário ex-FGC"
  else "Outros"

/-- The label vocabulary of the classifier. -/
def CLASS_LABELS : List String :=
  ["Tesouro", "Bancário", "Crédito Privado", "TPF", "Bancário ex-FGC", "Outros"]

/-- First-match evaluation of an ordered rule table, with the deterministic
"Outros" fallback for a code no rule matches. -/
def firstRuleMatch : List (List String × String) → String → String
  | [], _ => "Outros"
  | (s, lbl) :: rest, code => if code ∈ s then lbl else firstRuleMatch rest code

/-- Modelled from the spec (claim C2 refinement): ordered first-match rules.
The marker "TESOURO DIRETO" is tested as a case-insensitive substring of the
raw (untrimmed) fields — case-insensitivity rendered by upper-casing both
sides — and only afterwards is the upper-cased, trimmed product-type code
tested against the configured sets in order, any unmatched code falling to
"Outros". -/
def classify_spec (tipo_produto nome_ativo : String) : String :=
  if seqContains TESOURO_MARK.data (pyUpper tipo_produto).data
      || seqContains TESOURO_MARK.data (pyUpper nome_ativo).data then
    "Tesouro"
  else
    firstRuleMatch
      [(BANCARIOS, "Bancário"), (CREDITO_PRIVADO, "Crédito Privado"),
       (TPF, "TPF"), (BANCARIOS_EX_FGC, "Bancário ex-FGC")]
      (pyStrip (pyUpper tipo_produto))

/-! ## Data model: one normalized holding row (principal.py lines 85–114) -/

/-- One row of the normalized dataframe `df`. Numeric cells already went
through `pd.to_numeric(..., errors="coerce")`, so an unparseable or absent
cell is `none`. The `emissor` column is optional in the input. -/
structure Row where
  conta : String
  cliente : String
  emissor : Option String
  tipo_produto : String
  ativo : String
  valor_bruto_cliente : Option ℚ
  valor_bruto_mercado : Option ℚ
deriving DecidableEq, Repr

/-- Column `valor_rf` (line 134): the resolver applied row-wise. -/
def valor_rf (r : Row) : ℚ := escolher_valor_rf r.valor_bruto_cliente r.valor_bruto_mercado

/-- Column `classe_rf` (lines 181–184): the classifier applied row-wise. -/
def classe_rf (r : Row) : String := classificar_linha r.tipo_produto r.ativo

/-! ## Aggregator (principal.py lines 190–309)

`df.groupby(key, dropna=False)[col].sum()` keeps every row, null keys
included, and produces one `(key, sum)` pair per distinct key. -/

/-- Add `x` to the sum of group `k`, creating the group if absent. -/
def insertAdd {κ : Type} [DecidableEq κ] (k : κ) (x : ℚ) :
    List (κ × ℚ) → List (κ × ℚ)
  | [] => [(k, x)]
  | (k2, s) :: t => if k = k2 then (k2, s + x) :: t else (k2, s) :: insertAdd k x t

/-- Model of `rows.groupby(key, dropna=False)[val].sum()`: one `(key, sum)`
pair per distinct key, keys in first-occurrence order. -/
def groupBySum {α κ : Type} [DecidableEq κ] (key : α → κ) (val : α → ℚ)
    (rows : List α) : List (κ × ℚ) :=
  rows.foldl (fun g r => insertAdd (key r) (val r) g) []

/-- Look up the sum of group `k` in a grouped result. -/
def lookupQ {κ : Type} [DecidableEq κ] (k : κ) : List (κ × ℚ) → Option ℚ
  | [] => none
  | (k2, s) :: t => if k = k2 then some s else lookupQ k t

/-- The sum of a grouped result at key `k`, with `0` for an absent group. -/
def lookupQD {κ : Type} [DecidableEq κ] (k : κ) (g : List (κ × ℚ)) : ℚ :=
  (lookupQ k g).getD 0

/-- Sum of all group sums of a grouped result. -/
def sumVals {κ : Type} (g : List (κ × ℚ)) : ℚ := (g.map Prod.snd).sum

/-- Line 190: `total_rf = df["valor_rf"].sum()`. -/
def total_rf (rows : List Row) : ℚ := (rows.map valor_rf).sum

/-- Lines 226–231: `grp_prod`, group sums of `valor_rf` by `tipo_produto`. -/
def grp_prod (rows : List Row) : List (String × ℚ) :=
  groupBySum Row.tipo_produto valor_rf rows

/-- Lines 258–263: `grp_class`, group sums of `valor_rf` by `classe_rf`. -/
def grp_class (rows : List Row) : List (String × ℚ) :=
  groupBySum classe_rf valor_rf rows

/-- Lines 293–298: `grp_emissor`, group sums of `valor_rf` by `emissor`
(`dropna=False`: a missing issuer, `none`, forms its own group). -/
def grp_emissor (rows : List Row) : List (Option String × ℚ) :=
  groupBySum Row.emissor valor_rf rows

/-- Lines 233, 265, 301: `pct_estoque_rf = auc_rf / total_rf * 100 if
total_rf > 0 else 0.0`. -/
def pct_estoque_rf (group_sum total : ℚ) : ℚ :=
  if total > 0 then group_sum / total * 100 else 0

/-- Lines 234, 266, 303–307: `pct_auc_convexa = auc_rf / auc_total_convexa *
100 if auc_total_convexa > 0 else 0.0`. -/
def pct_auc_convexa (group_sum auc : ℚ) : ℚ :=
  if auc > 0 then group_sum / auc * 100 else 0

/-- Lines 193–195: the run halts with an error before any aggregate is
rendered when the firm-wide AuC is not positive. -/
def auc_gate (auc : ℚ) : Except String Unit :=
  if auc ≤ 0 then
    .error "Informe o AuC total da Convexa na barra lateral para cálculo das porcentagens."
  else .ok ()

/-! ## Historical ledger (principal.py lines 333–396) -/

/-- A calendar date (pandas timestamp restricted to its date part; the
program broadcasts one reference date to every row). -/
structure RefDate where
  year : ℕ
  month : ℕ
  day : ℕ
deriving DecidableEq, Repr

/-- Line 370: `dt.to_period("M").dt.to_timestamp()` — truncate a date to the
first day of its calendar month. -/
def monthStart (d : RefDate) : RefDate := ⟨d.year, d.month, 1⟩

/-- One row of the parquet ledger `historico_rf.parquet` (lines 333–355). -/
structure LedgerRow where
  data_ref : RefDate
  tipo : String
  categoria : String
  auc_rf : ℚ
  auc_total_convexa : ℚ
deriving DecidableEq, Repr

/-- Lines 333–355: `resumo_dia`, the batch written on a save — one "total"
row, then one "produto" row per product group, then one "classe" row per
class group, all stamped with the run's reference date and firm AuC. -/
def resumo_dia (rows : List Row) (data_ref : RefDate) (auc : ℚ) : List LedgerRow :=
  ⟨data_ref, "total", "RF Total", total_rf rows, auc⟩
    :: ((grp_prod rows).map fun p => ⟨data_ref, "produto", p.1, p.2, auc⟩)
    ++ ((grp_class rows).map fun p => ⟨data_ref, "classe", p.1, p.2, auc⟩)

/-- Lines 357–364: the append path of `salvar_historico`. `none` models an
absent ledger file; when the file exists its rows are read, the new batch is
concatenated after them and the concatenation is written back whole. -/
def append_hist (old : Option (List LedgerRow)) (batch : List LedgerRow) : List LedgerRow :=
  match old with
  | some hist_antigo => hist_antigo ++ batch
  | none => batch

/-- Lines 380–382 and 389–391 (parametrized by the group type `t`, the code
is textually identical for "produto" and "classe"): filter the ledger to
rows of type `t`, truncate dates to months, group by `(month, categoria)`
and sum `auc_rf`. -/
def hist_series (t : String) (log : List LedgerRow) : List ((RefDate × String) × ℚ) :=
  groupBySum (fun r => (monthStart r.data_ref, r.categoria)) LedgerRow.auc_rf
    (log.filter fun r => r.tipo = t)

/-- The dense pivot of lines 382 and 391 (`pivot(index="mes",
columns="categoria").fillna(0.0)`) read at one cell: the group's sum when
the `(month, category)` pair occurs, `0.0` otherwise. -/
def pivot_cell (g : List ((RefDate × String) × ℚ)) (m : RefDate) (c : String) : ℚ :=
  (lookupQ (m, c) g).getD 0

/-- Lines 367–396 for one category series: `none` is the explicit
"no data yet" info path, taken when the ledger file is absent (line 396) or
when no row of type `t` exists (lines 385 and 394); otherwise the grouped
series feeding the pivot is returned. -/
def read_monthly_series (log : Option (List LedgerRow)) (t : String) :
    Option (List ((RefDate × String) × ℚ)) :=
  match log with
  | none => none
  | some rows =>
    let g := hist_series t rows
    if g.isEmpty then none else some g

/-! ## Schema validation (principal.py lines 68–83) -/

/-- Line 68: the required fixed-schema headers. -/
def required_base : List String := ["Conta", "Produto", "Ativo"]

/-- Line 70: the recognized gross-value headers. -/
def value_cols : List String :=
  ["Valor Bruto - Curva Cliente", "Valor Bruto - Curva Mercado"]

/-- Line 72: `[c for c in required_base if c not in df_raw.columns]`. -/
def missing_base (cols : List String) : List String :=
  required_base.filter fun c => decide (c ∉ cols)

/-- The two fatal schema conditions (each carries exactly what the program
prints: the offending header list and the full list of available columns). -/
inductive SchemaError where
  | missingRequired (missing : List String) (available : List String)
  | noValueColumn (expected : List String) (available : List String)
deriving DecidableEq, Repr

/-- Lines 72–83: fail when any required header is missing (reporting the
missing ones and the available columns), then fail when neither recognized
gross-value column is present (reporting the expected and available
columns); otherwise normalization proceeds. -/
def validate_columns (cols : List String) : Except SchemaError Unit :=
  if missing_base cols ≠ [] then
    .error (.missingRequired (missing_base cols) cols)
  else if value_cols.all (fun c => decide (c ∉ cols)) then
    .error (.noValueColumn value_cols cols)
  else .ok ()

/-! ## Concrete scenario data (spec section 8, end-to-end test) -/

/-- Scenario holding: code "CDB", gross values 100 (client curve) and 90
(market curve). -/
def row_cdb : Row :=
  ⟨"1", "", none, "CDB", "CDB BANCO X", some 100, some 90⟩

/-- Scenario holding: code "CRI", gross value 50 (client curve), market
curve missing. -/
def row_cri : Row :=
  ⟨"2", "", none, "CRI", "CRI EMISSOR Y", some 50, none⟩

/-- The two-holding scenario input. -/
def demo_rows : List Row := [row_cdb, row_cri]

/-! ## Generic facts about `groupBySum` -/

/-- Sum of a grouped result read through a cons. -/
lemma sumVals_cons {κ : Type} (p : κ × ℚ) (g : List (κ × ℚ)) :
    sumVals (p :: g) = p.2 + sumVals g := by
  simp [sumVals]

lemma sumVals_insertAdd {κ : Type} [DecidableEq κ] (k : κ) (x : ℚ)
    (g : List (κ × ℚ)) : sumVals (insertAdd k x g) = sumVals g + x := by
  induction g with
  | nil => simp [insertAdd, sumVals]
  | cons p t ih =>
    obtain ⟨k2, s⟩ := p
    by_cases h : k = k2
    · simp [insertAdd, h, sumVals_cons]; ring
    · simp only [insertAdd, if_neg h, sumVals_cons, ih]; ring

lemma lookupQD_insertAdd_self {κ : Type} [DecidableEq κ] (k : κ) (x : ℚ)
    (g : List (κ × ℚ)) : lookupQD k (insertAdd k x g) = lookupQD k g + x := by
  induction g with
  | nil => simp [insertAdd, lookupQD, lookupQ]
  | cons p t ih =>
    obtain ⟨k2, s⟩ := p
    by_cases h : k = k2
    · simp [insertAdd, h, lookupQD, lookupQ]
    · simp only [insertAdd, if_neg h, lookupQD, lookupQ] at ih ⊢
      simp [if_neg h, ih]

lemma lookupQD_insertAdd_other {κ : Type} [DecidableEq κ] {k k' : κ} (x : ℚ)
    (g : List (κ × ℚ)) (hne : k' ≠ k) :
    lookupQD k' (insertAdd k x g) = lookupQD k' g := by
  induction g with
  | nil => simp [insertAdd, lookupQD, lookupQ, hne]
  | cons p t ih =>
    obtain ⟨k2, s⟩ := p
    by_cases h : k = k2
    · subst h
      simp [insertAdd, lookupQD, lookupQ, if_neg hne]
    · simp only [insertAdd, if_neg h, lookupQD, lookupQ] at ih ⊢
      by_cases h' : k' = k2 <;> simp [h', ih]

lemma sumVals_foldl_insertAdd {α κ : Type} [DecidableEq κ] (key : α → κ)
    (val : α → ℚ) : ∀ (rows : List α) (g : List (κ × ℚ)),
    sumVals (rows.foldl (fun g r => insertAdd (key r) (val r) g) g) =
      sumVals g + (rows.map val).sum := by
  intro rows
  induction rows with
  | nil => simp
  | cons r rs ih =>
    intro g
    simp only [List.foldl_cons, List.map_cons, List.sum_cons, ih,
      sumVals_insertAdd]
    ring

/-- The group sums of `groupBySum` add up to the sum over all rows. -/
lemma sumVals_groupBySum {α κ : Type} [DecidableEq κ] (key : α → κ)
    (val : α → ℚ) (rows : List α) :
    sumVals (groupBySum key val rows) = (rows.map val).sum := by
  unfold groupBySum
  rw [sumVals_foldl_insertAdd]
  simp [sumVals]

lemma lookupQD_foldl_insertAdd {α κ : Type} [DecidableEq κ] (key : α → κ)
    (val : α → ℚ) (k : κ) : ∀ (rows : List α) (g : List (κ × ℚ)),
    lookupQD k (rows.foldl (fun g r => insertAdd (key r) (val r) g) g) =
      lookupQD k g + ((rows.filter fun r => decide (key r = k)).map val).sum := by
  intro rows
  induction rows with
  | nil => simp
  | cons r rs ih =>
    intro g
    simp only [List.foldl_cons, ih]
    by_cases h : key r = k
    · subst h
      rw [lookupQD_insertAdd_self]
      simp only [List.filter_cons, decide_True, if_true, List.map_cons,
        List.sum_cons]
      ring
    · rw [lookupQD_insertAdd_other _ _ (fun hk => h hk.symm)]
      simp [List.filter_cons, h]

/-- The grouped sum at key `k` is the sum of `val` over the rows whose key
is `k`. -/
lemma lookupQD_groupBySum {α κ : Type} [DecidableEq κ] (key : α → κ)
    (val : α → ℚ) (k : κ) (rows : List α) :
    lookupQD k (groupBySum key val rows) =
      ((rows.filter fun r => decide (key r = k)).map val).sum := by
  unfold groupBySum
  rw [lookupQD_foldl_insertAdd]
  simp [lookupQD, lookupQ]

/-! ## Facts about the substring test and stripping -/

lemma seqStarts_iff (n : List Char) : ∀ h : List Char,
    seqStarts n h = true ↔ ∃ t, h = n ++ t := by
  induction n with
  | nil =>
    intro h
    simp [seqStarts]
  | cons a as ih =>
    intro h
    cases h with
    | nil =>
      simp only [seqStarts, List.cons_append]
      constructor
      · intro hfalse; cases hfalse
      · rintro ⟨t, ht⟩; cases ht
    | cons b bs =>
      simp only [seqStarts]
      by_cases hab : a = b
      · subst hab
        rw [if_pos rfl, ih bs]
        constructor
        · rintro ⟨t, ht⟩; exact ⟨t, by simp [ht]⟩
        · rintro ⟨t, ht⟩
          simp only [List.cons_append, List.cons.injEq] at ht
          exact ⟨t, ht.2⟩
      · rw [if_neg hab]
        constructor
        · intro hfalse; cases hfalse
        · rintro ⟨t, ht⟩
          simp only [List.cons_append, List.cons.injEq] at ht
          exact absurd ht.1.symm hab

lemma seqContains_iff (n : List Char) : ∀ h : List Char,
    seqContains n h = true ↔ ∃ s t, h = s ++ n ++ t := by
  intro h
  induction h with
  | nil =>
    simp only [seqContains, seqStarts_iff]
    constructor
    · rintro ⟨t, ht⟩; exact ⟨[], t, by simp [ht]⟩
    · rintro ⟨s, t, hst⟩
      refine ⟨t, ?_⟩
      rcases List.append_eq_nil.mp hst.symm with ⟨h1, h2⟩
      rcases List.append_eq_nil.mp h1 with ⟨h3, h4⟩
      simp [h2, h4]
  | cons b bs ih =>
    simp only [seqContains, Bool.or_eq_true, seqStarts_iff, ih]
    constructor
    · rintro (⟨t, ht⟩ | ⟨s, t, hst⟩)
      · exact ⟨[], t, by simp [ht]⟩
      · exact ⟨b :: s, t, by simp [hst]⟩
    · rintro ⟨s, t, hst⟩
      cases s with
      | nil =>
        left
        exact ⟨t, by simpa using hst⟩
      | cons c s' =>
        right
        simp only [List.cons_append, List.cons.injEq] at hst
        exact ⟨s', t, hst.2⟩

lemma seqContains_reverse (n h : List Char) :
    seqContains n.reverse h.reverse = seqContains n h := by
  rw [Bool.eq_iff_iff, seqContains_iff, seqContains_iff]
  constructor
  · rintro ⟨s, t, hst⟩
    refine ⟨t.reverse, s.reverse, ?_⟩
    have := congrArg List.reverse hst
    simpa [List.reverse_append, List.append_assoc] using this
  · rintro ⟨s, t, hst⟩
    refine ⟨t.reverse, s.reverse, ?_⟩
    simp [hst, List.reverse_append, List.append_assoc]

/-- Dropping leading whitespace cannot remove an occurrence of a needle
whose first character is not whitespace. -/
lemma seqContains_dropWhile (n h : List Char) (c : Char)
    (hhd : n.head? = some c) (hc : pySpace c = false) :
    seqContains n (h.dropWhile pySpace) = seqContains n h := by
  cases n with
  | nil => cases hhd
  | cons a as =>
    have hac : a = c := by simpa using hhd
    subst hac
    induction h with
    | nil => rfl
    | cons b bs ih =>
      by_cases hb : pySpace b
      · have hne : a ≠ b := fun hab => by rw [hab, hb] at hc; cases hc
        rw [List.dropWhile_cons_of_pos (by simpa using hb), ih]
        simp [seqContains, seqStarts, if_neg hne]
      · rw [List.dropWhile_cons_of_neg (by simpa using hb)]

/-- Stripping whitespace at both ends cannot remove an occurrence of a
needle whose first and last characters are not whitespace. -/
lemma seqContains_stripL (n h : List Char) (c d : Char)
    (hhd : n.head? = some c) (hc : pySpace c = false)
    (hlast : n.getLast? = some d) (hd : pySpace d = false) :
    seqContains n (stripL h) = seqContains n h := by
  unfold stripL
  have hrevhd : n.reverse.head? = some d := by
    rw [List.head?_reverse]; exact hlast
  calc seqContains n ((((h.dropWhile pySpace).reverse.dropWhile pySpace)).reverse)
      = seqContains n.reverse ((h.dropWhile pySpace).reverse.dropWhile pySpace) := by
        rw [← seqContains_reverse n.reverse _, List.reverse_reverse]
    _ = seqContains n.reverse (h.dropWhile pySpace).reverse := by
        rw [seqContains_dropWhile _ _ d hrevhd hd]
    _ = seqContains n (h.dropWhile pySpace) := seqContains_reverse _ _
    _ = seqContains n h := seqContains_dropWhile _ _ c hhd hc

/-! ## Claim theorems -/

/-- C1: for every holding, the Value Resolver returns exactly one
resolved value by this total order — both candidates missing gives `0.0`,
exactly one candidate present gives that candidate, and two present
candidates give their arithmetic minimum. The Lean function is total, so it
never raises, and it reads nothing but its two arguments (purity and row
independence). -/
theorem escolher_valor_rf_cases (a b : ℚ) :
    escolher_valor_rf none none = 0
  ∧ escolher_valor_rf (some a) none = a
  ∧ escolher_valor_rf none (some b) = b
  ∧ escolher_valor_rf (some a) (some b) = min a b :=
  ⟨rfl, rfl, rfl, rfl⟩

/-- C6: for every input dataset, each of the three groupings (by product,
by class, and by issuer, where a missing issuer forms its own `none` group
rather than being dropped) has group sums adding up exactly to `total_rf`,
the sum of the resolved values over all holdings. -/
theorem group_sums_eq_total_rf (rows : List Row) :
    sumVals (grp_prod rows) = total_rf rows
  ∧ sumVals (grp_class rows) = total_rf rows
  ∧ sumVals (grp_emissor rows) = total_rf rows := by
  refine ⟨?_, ?_, ?_⟩ <;>
    simp [grp_prod, grp_class, grp_emissor, total_rf, sumVals_groupBySum]

/-- C7: the ledger append reads the existing log, concatenates the new
batch after it and writes back the whole concatenation: the stored rows
survive unchanged as the initial segment, the row count never decreases,
an absent log starts from the batch alone, and re-appending a batch (for
instance for an already-logged reference date) accumulates a second copy
after the first instead of replacing it — no deduplication by date. -/
theorem append_hist_accumulates (old batch : List LedgerRow) :
    append_hist (some old) batch = old ++ batch
  ∧ (append_hist (some old) batch).take old.length = old
  ∧ old.length ≤ (append_hist (some old) batch).length
  ∧ append_hist none batch = batch
  ∧ append_hist (some (append_hist (some old) batch)) batch
      = old ++ batch ++ batch := by
  refine ⟨rfl, ?_, ?_, rfl, by simp [append_hist]⟩
  · simp [append_hist, List.take_left]
  · simp [append_hist]

lemma TESOURO_MARK_head : TESOURO_MARK.data.head? = some 'T' := by decide

lemma TESOURO_MARK_last : TESOURO_MARK.data.getLast? = some 'O' := by decide

/-- The marker test the source performs on the stripped field agrees with
the case-insensitive substring test on the unstripped field, because the
marker starts and ends with non-whitespace characters. -/
lemma marker_on_strip (s : String) :
    seqContains TESOURO_MARK.data (pyStrip (pyUpper s)).data
      = seqContains TESOURO_MARK.data (pyUpper s).data :=
  seqContains_stripL _ _ 'T' 'O' TESOURO_MARK_head (by decide)
    TESOURO_MARK_last (by decide)

/-- C2: the classifier is total — it always returns one label from the
fixed vocabulary — and it equals the spec's ordered first-match rule list:
the case-insensitive "TESOURO DIRETO" substring test on either raw field
wins over every set-membership rule, then the upper-cased trimmed code is
tested against the bank-issued, private-credit, public-bond and
FGC-excluded sets in that order, and any unmatched code is labeled
"Outros" immediately. -/
theorem classificar_linha_first_match (tp nome : String) :
    classificar_linha tp nome = classify_spec tp nome
  ∧ classificar_linha tp nome ∈ CLASS_LABELS := by
  constructor
  · simp only [classificar_linha, classify_spec]
    rw [show (pyStrip (pyUpper tp)).data = stripL (pyUpper tp).data from rfl,
      show (pyStrip (pyUpper nome)).data = stripL (pyUpper nome).data from rfl,
      show stripL (pyUpper tp).data = (pyStrip (pyUpper tp)).data from rfl,
      show stripL (pyUpper nome).data = (pyStrip (pyUpper nome)).data from rfl,
      marker_on_strip tp, marker_on_strip nome]
    split
    · rfl
    · simp only [firstRuleMatch]
  · simp only [classificar_linha]
    split
    · decide
    · split
      · decide
      · split
        · decide
        · split
          · decide
          · split
            · decide
            · decide

/-- C3 counterexample: the claim's formula `pct_of_rf_total = 100 *
group_sum / total_rf` excepts only `total_rf == 0`, but the code's guard is
`total_rf > 0`. At a single group of summed value `-1` with `total_rf = -1`
the claim's formula gives `100` while the code computes `0`. -/
theorem pct_estoque_rf_neg_total_counterexample :
    pct_estoque_rf (-1) (-1) ≠ 100 * (-1) / (-1) := by
  norm_num [pct_estoque_rf]

/-- C3 (amended): each group's `pct_estoque_rf` equals `100 * group_sum /
total_rf` whenever `total_rf > 0` and is `0.0` whenever `total_rf ≤ 0`
(so in particular at `total_rf = 0` there is no division fault);
`pct_auc_convexa` equals `100 * group_sum / firm_auc` whenever
`firm_auc > 0`, and a non-positive `firm_auc` is rejected as a fatal error
before any aggregation runs. -/
theorem pct_formulas (s total auc : ℚ) :
    (0 < total → pct_estoque_rf s total = 100 * s / total)
  ∧ (total ≤ 0 → pct_estoque_rf s total = 0)
  ∧ (0 < auc → pct_auc_convexa s auc = 100 * s / auc)
  ∧ (auc ≤ 0 → auc_gate auc =
      .error "Informe o AuC total da Convexa na barra lateral para cálculo das porcentagens.")
  ∧ (0 < auc → auc_gate auc = .ok ()) := by
  refine ⟨fun h => ?_, fun h => ?_, fun h => ?_, fun h => ?_, fun h => ?_⟩
  · rw [pct_estoque_rf, if_pos h]; ring
  · rw [pct_estoque_rf, if_neg (not_lt.mpr h)]
  · rw [pct_auc_convexa, if_pos h]; ring
  · rw [auc_gate, if_pos h]
  · rw [auc_gate, if_neg (not_le.mpr h)]

/-- C3 witness: the amended statement evaluated at concrete inputs, one per
hypothesis-guarded conjunct. -/
theorem pct_formulas_witness :
    pct_estoque_rf 50 200 = 100 * 50 / 200
  ∧ pct_estoque_rf 50 0 = 0
  ∧ pct_auc_convexa 90 1000 = 100 * 90 / 1000
  ∧ auc_gate 0 =
      .error "Informe o AuC total da Convexa na barra lateral para cálculo das porcentagens."
  ∧ auc_gate 1000 = .ok () :=
  ⟨(pct_formulas 50 200 1000).1 (by norm_num),
   (pct_formulas 50 0 1000).2.1 le_rfl,
   (pct_formulas 90 0 1000).2.2.1 (by norm_num),
   (pct_formulas 0 0 0).2.2.2.1 le_rfl,
   (pct_formulas 0 0 1000).2.2.2.2 (by norm_num)⟩

/-- C5: on the two-holding scenario — code "CDB" with candidates (100, 90)
and code "CRI" with candidates (50, missing) and firm AuC 1000 — the class
aggregates hold 90 for "Bancário" and 50 for "Crédito Privado", the RF
total is 140, and "Bancário"'s percentage of firm AuC is 9. -/
theorem demo_scenario :
    classe_rf row_cdb = "Bancário"
  ∧ classe_rf row_cri = "Crédito Privado"
  ∧ lookupQ "Bancário" (grp_class demo_rows) = some 90
  ∧ lookupQ "Crédito Privado" (grp_class demo_rows) = some 50
  ∧ total_rf demo_rows = 140
  ∧ pct_auc_convexa 90 1000 = 9 := by
  refine ⟨rfl, rfl, by decide, by decide, ?_, ?_⟩
  · simp [total_rf, demo_rows, valor_rf, row_cdb, row_cri, escolher_valor_rf]
    norm_num [min_def]
  · norm_num [pct_auc_convexa]

/-- C8: for every ledger content and group type, the monthly pivot cell at
`(month, category)` — dense, missing cells read as `0.0` — equals the sum
of `auc_rf` over all ledger rows of that group type and category whose
reference date falls in that calendar month (first-of-month truncation);
an absent ledger file and a ledger with no row of the requested type both
yield the explicit no-data signal (`none`) rather than an empty table, and
otherwise `read_monthly_series` returns exactly the grouped series the
pivot is built from. -/
theorem monthly_pivot_cell (log : List LedgerRow) (t c : String) (m : RefDate) :
    pivot_cell (hist_series t log) m c =
      ((log.filter fun r =>
          decide (r.tipo = t ∧ r.categoria = c ∧ monthStart r.data_ref = m)).map
        LedgerRow.auc_rf).sum
  ∧ read_monthly_series none t = none
  ∧ read_monthly_series (some []) t = none
  ∧ (read_monthly_series (some log) t).getD [] = hist_series t log := by
  refine ⟨?_, rfl, rfl, ?_⟩
  · have h := lookupQD_groupBySum
      (fun r : LedgerRow => (monthStart r.data_ref, r.categoria))
      LedgerRow.auc_rf (m, c) (log.filter fun r => decide (r.tipo = t))
    have hcell : pivot_cell (hist_series t log) m c =
        lookupQD (m, c) (hist_series t log) := rfl
    rw [hcell, hist_series, h, List.filter_filter]
    congr 1
    apply congrArg
    apply List.filter_congr
    intro r _
    by_cases h1 : r.tipo = t <;> by_cases h2 : r.categoria = c <;>
      by_cases h3 : monthStart r.data_ref = m <;>
      simp [h1, h2, h3, Prod.ext_iff]
  · rw [read_monthly_series]
    by_cases h : (hist_series t log).isEmpty
    · rw [if_pos h, Option.getD_none, (List.isEmpty_iff).mp h]
    · rw [if_neg h, Option.getD_some]

/-- C9: in fixed-schema mode, `missing_base` enumerates exactly the
required headers absent from the input; any absent required header makes
validation fail fatally carrying that enumeration together with the full
header list actually present; with all required headers present but
neither recognized gross-value column, validation fails the same fatal way
carrying the expected value columns and the full header list; and with at
least one value column present it succeeds. -/
theorem validate_columns_cases (cols : List String) :
    (∀ c, c ∈ missing_base cols ↔ c ∈ required_base ∧ c ∉ cols)
  ∧ (missing_base cols ≠ [] →
      validate_columns cols = .error (.missingRequired (missing_base cols) cols))
  ∧ (missing_base cols = [] → (∀ c ∈ value_cols, c ∉ cols) →
      validate_columns cols = .error (.noValueColumn value_cols cols))
  ∧ (missing_base cols = [] → (∃ c ∈ value_cols, c ∈ cols) →
      validate_columns cols = .ok ()) := by
  refine ⟨?_, fun h => ?_, fun h1 h2 => ?_, fun h1 h2 => ?_⟩
  · intro c
    simp [missing_base, List.mem_filter]
  · rw [validate_columns, if_pos h]
  · rw [validate_columns, if_neg (by simp [h1]), if_pos ?_]
    rw [List.all_eq_true]
    intro c hc
    simpa using h2 c hc
  · rw [validate_columns, if_neg (by simp [h1]), if_neg ?_]
    obtain ⟨c, hc, hmem⟩ := h2
    rw [List.all_eq_true]
    intro hall
    simpa [hmem] using hall c hc

/-- C9 witness: the three validation outcomes at concrete header lists. -/
theorem validate_columns_cases_witness :
    validate_columns ["Conta", "Ativo"]
      = .error (.missingRequired ["Produto"] ["Conta", "Ativo"])
  ∧ validate_columns ["Conta", "Produto", "Ativo"]
      = .error (.noValueColumn value_cols ["Conta", "Produto", "Ativo"])
  ∧ validate_columns
      ["Conta", "Produto", "Ativo", "Valor Bruto - Curva Cliente"] = .ok () := by
  refine ⟨?_, ?_, ?_⟩
  · have h := (validate_columns_cases ["Conta", "Ativo"]).2.1 (by decide)
    rwa [show missing_base ["Conta", "Ativo"] = ["Produto"] from by decide] at h
  · exact (validate_columns_cases ["Conta", "Produto", "Ativo"]).2.2.1
      (by decide) (by decide)
  · exact (validate_columns_cases
      ["Conta", "Produto", "Ativo", "Valor Bruto - Curva Cliente"]).2.2.2
      (by decide) (by decide)

lemma length_filter_map_tipo (l : List (String × ℚ)) (d : RefDate) (auc : ℚ)
    (t t' : String) :
    ((l.map fun p => (⟨d, t, p.1, p.2, auc⟩ : LedgerRow)).filter fun r =>
        decide (r.tipo = t')).length = if t = t' then l.length else 0 := by
  rw [List.filter_map]
  by_cases h : t = t' <;> simp [Function.comp_def, h]

/-- C10: every batch written to the ledger consists of exactly one row of
group type "total", one "produto" row per product group and one "classe"
row per class group, and every row's `tipo` is one of those three — in
particular no issuer-level row is ever written, even when the issuer view
is computed and displayed. -/
theorem resumo_dia_row_types (rows : List Row) (d : RefDate) (auc : ℚ) :
    ((resumo_dia rows d auc).filter fun r => decide (r.tipo = "total")).length = 1
  ∧ ((resumo_dia rows d auc).filter fun r => decide (r.tipo = "produto")).length
      = (grp_prod rows).length
  ∧ ((resumo_dia rows d auc).filter fun r => decide (r.tipo = "classe")).length
      = (grp_class rows).length
  ∧ ∀ r ∈ resumo_dia rows d auc, r.tipo ∈ ["total", "produto", "classe"] := by
  refine ⟨?_, ?_, ?_, ?_⟩
  · simp [resumo_dia, List.filter_cons, List.filter_append,
      length_filter_map_tipo]
  · simp [resumo_dia, List.filter_cons, List.filter_append,
      length_filter_map_tipo]
  · simp [resumo_dia, List.filter_cons, List.filter_append,
      length_filter_map_tipo]
  · intro r hr
    rw [resumo_dia] at hr
    rcases List.mem_cons.mp hr with h | h
    · subst h; simp
    · rcases List.mem_append.mp h with h2 | h2 <;>
      · obtain ⟨p, _, hp⟩ := List.mem_map.mp h2
        rw [← hp]
        simp

/-- C10 witness: the membership conjunct applied to the leading "total" row
of a concrete batch. -/
theorem resumo_dia_row_types_witness :
    (⟨⟨2025, 1, 2⟩, "total", "RF Total", total_rf demo_rows, 1000⟩ : LedgerRow).tipo
      ∈ ["total", "produto", "classe"] :=
  (resumo_dia_row_types demo_rows ⟨2025, 1, 2⟩ 1000).2.2.2 _
    (List.mem_cons_self _ _)

end MesaRF
